import Mathlib

/-!
Shallow embedding of the BanMonitor program (`src/app.py`, class
`RedditBanMonitor`) and verification of its specification claims.

The mutable attributes `monitored_users : Set[str]` and
`user_status : Dict[str, bool]` are modelled as a list of identifiers and an
insertion-ordered association list, mirroring Python `set`/`dict` semantics
for the operations the program performs (membership, add, remove,
`get(k, default)`, item assignment, `del`).  Network interactions are
modelled by passing the outcome of each HTTP call as an explicit parameter.
-/

namespace BanMonitor

/-- Python `dict[str, bool]` as an insertion-ordered association list. -/
abbrev StatusMap := List (String × Bool)

/-- `d.get(k)` as an option: first entry with key `k`, if any. -/
def dictFind : StatusMap → String → Option Bool
  | [], _ => none
  | p :: rest, k => if p.1 == k then some p.2 else dictFind rest k

/-- Python `d.get(k, dflt)` (line 210: `self.user_status.get(username, True)`). -/
def dictGet (d : StatusMap) (k : String) (dflt : Bool) : Bool :=
  (dictFind d k).getD dflt

/-- Python `d[k] = v`: overwrite in place if the key exists, else append. -/
def dictSet : StatusMap → String → Bool → StatusMap
  | [], k, v => [(k, v)]
  | p :: rest, k, v => if p.1 == k then (k, v) :: rest else p :: dictSet rest k v

/-- Python `del d[k]` (keys are unique, so removing every match agrees). -/
def dictDel : StatusMap → String → StatusMap
  | [], _ => []
  | p :: rest, k => if p.1 == k then dictDel rest k else p :: dictDel rest k

/-- Python `k in d`. -/
def dictContains (d : StatusMap) (k : String) : Bool :=
  (dictFind d k).isSome

/-- The keys of the status map, in insertion order. -/
def dictKeys (d : StatusMap) : List String :=
  d.map Prod.fst

/-- The mutable state of `RedditBanMonitor` relevant to the watchlist:
`monitored_users` (a Python set, modelled as a duplicate-free list) and
`user_status` (`True` = active, `False` = banned). -/
structure MonitorState where
  monitored_users : List String
  user_status : StatusMap
deriving DecidableEq, Repr

/-- The empty initial state built by `__init__` (lines 36-37). -/
def initMonitor : MonitorState := ⟨[], []⟩

/-- Python `s.replace("u/", "")` on the character list: scan left to
right, removing every non-overlapping occurrence of `u/`. -/
def removeUSlash : List Char → List Char
  | [] => []
  | [c] => [c]
  | c1 :: c2 :: rest =>
    if c1 = 'u' ∧ c2 = '/' then removeUSlash rest
    else c1 :: removeUSlash (c2 :: rest)

/-- Python `s.replace("/u/", "")` on the character list: scan left to
right, removing every non-overlapping occurrence of `/u/`. -/
def removeSlashU : List Char → List Char
  | [] => []
  | [c] => [c]
  | [c1, c2] => [c1, c2]
  | c1 :: c2 :: c3 :: rest =>
    if c1 = '/' ∧ c2 = 'u' ∧ c3 = '/' then removeSlashU rest
    else c1 :: removeSlashU (c2 :: c3 :: rest)

/-- `True` when the character list has no occurrence of `u/`. -/
def noUSlash : List Char → Bool
  | [] => true
  | [_] => true
  | c1 :: c2 :: rest =>
    if c1 = 'u' ∧ c2 = '/' then false
    else noUSlash (c2 :: rest)

/-- Lines 261 and 285: `context.args[0].replace('u/', '').replace('/u/', '')`. -/
def strip_username (arg : String) : String :=
  ⟨removeSlashU (removeUSlash arg.data)⟩

/-- Outcome of one HTTP GET as seen by `_check_user_status`:
a response with a status code, or a raised transport exception. -/
inductive HttpOutcome where
  | ok (code : Nat)
  | exn
deriving DecidableEq, Repr

/-- Lines 162-179: map the lookup outcome to a boolean status.
200 ⇒ active, 404 ⇒ banned/absent, any other code ⇒ assume active,
any exception ⇒ assume active. -/
def check_user_status (g : HttpOutcome) : Bool :=
  match g with
  | .ok code => if code == 200 then true else if code == 404 then false else true
  | .exn => true

/-- Outcome of the token POST as seen by `_get_reddit_token`:
a 200 response carrying a token, a non-200 response, or an exception. -/
inductive TokenOutcome where
  | success (tok : String)
  | httpError (code : Nat)
  | exn
deriving DecidableEq, Repr

/-- Lines 128-150: on 200 store the token; on any other response or on an
exception the function raises (modelled as `Except.error`). -/
def get_reddit_token (o : TokenOutcome) : Except Unit String :=
  match o with
  | .success tok => .ok tok
  | .httpError _ => .error ()
  | .exn => .error ()

/-- Lines 152-179, the whole of `_check_user_status` including the
token handling: when no token is held the token request runs first
(lines 154-155, outside the `try`, so its exception propagates); with a
token held the GET outcome is mapped by `check_user_status`.  Returns the
boolean result together with the token attribute afterwards. -/
def check_user_status_full (token : Option String) (auth : TokenOutcome)
    (g : HttpOutcome) : Except Unit (Bool × Option String) :=
  match token with
  | some tok => .ok (check_user_status g, some tok)
  | none =>
    match get_reddit_token auth with
    | .error e => .error e
    | .ok tok => .ok (check_user_status g, some tok)

/-- The two notification kinds the monitoring loop can send. -/
inductive Notification where
  | banned
  | restored
deriving DecidableEq, Repr

/-- Lines 209-224, the per-identifier body of a sweep after the status
check returned `is_active`: read the previous status (default `True`),
send a notification on a transition, and write the new status back
unconditionally. -/
def sweepCheckStep (s : MonitorState) (username : String) (is_active : Bool) :
    MonitorState × Option Notification :=
  let previous_status := dictGet s.user_status username true
  let notif : Option Notification :=
    if previous_status && !is_active then some .banned
    else if !previous_status && is_active then some .restored
    else none
  ({ s with user_status := dictSet s.user_status username is_active }, notif)

/-- Lines 208-230, one iteration of the inner `for` loop with its
`try`/`except`: if `_check_user_status` raises (only possible from the
token request), the exception is caught and logged, leaving the state
untouched and sending nothing; otherwise the transition logic runs. -/
def monitoring_iteration (s : MonitorState) (token : Option String)
    (username : String) (auth : TokenOutcome) (g : HttpOutcome) :
    MonitorState × Option String × Option Notification :=
  match check_user_status_full token auth g with
  | .error _ => (s, token, none)
  | .ok (is_active, token2) =>
    let r := sweepCheckStep s username is_active
    (r.1, token2, r.2)

/-- One full sweep over a captured iteration list (line 207 iterates
`self.monitored_users.copy()`), each identifier paired with the outcomes
of its network calls; returns the final state, final token, and the
notification (if any) recorded per identifier. -/
def monitoring_sweep (s : MonitorState) (token : Option String) :
    List (String × TokenOutcome × HttpOutcome) →
    MonitorState × Option String × List (String × Option Notification)
  | [] => (s, token, [])
  | (u, auth, g) :: rest =>
    let r := monitoring_iteration s token u auth g
    let t := monitoring_sweep r.1 r.2.1 rest
    (t.1, t.2.1, (u, r.2.2) :: t.2.2)

/-- Reply of the `/add` command relevant to the store. -/
inductive AddReply where
  | alreadyMonitored
  | added (is_active : Bool)
deriving DecidableEq, Repr

/-- Lines 255-277, `_add_user_command` for a present argument: strip the
`u/` prefixes, reply early if already monitored (no probe), otherwise
probe (outcome `probe`), insert into the set and seed the status. -/
def add_user_command (s : MonitorState) (arg : String) (probe : Bool) :
    MonitorState × AddReply :=
  let username := strip_username arg
  if s.monitored_users.contains username then
    (s, .alreadyMonitored)
  else
    ({ monitored_users := s.monitored_users ++ [username],
       user_status := dictSet s.user_status username probe }, .added probe)

/-- Reply of the `/remove` command relevant to the store. -/
inductive RemoveReply where
  | notMonitored
  | removed
deriving DecidableEq, Repr

/-- Lines 279-296, `_remove_user_command` for a present argument: strip
the `u/` prefixes, reply early if not monitored, otherwise remove from
the set and delete the status entry when present (lines 291-293). -/
def remove_user_command (s : MonitorState) (arg : String) :
    MonitorState × RemoveReply :=
  let username := strip_username arg
  if s.monitored_users.contains username then
    ({ monitored_users := s.monitored_users.filter (fun x => x != username),
       user_status :=
         if dictContains s.user_status username then
           dictDel s.user_status username
         else s.user_status }, .removed)
  else (s, .notMonitored)

/-- Line 314: `sum(1 for status in self.user_status.values() if status)`. -/
def active_count (s : MonitorState) : Nat :=
  (s.user_status.filter (fun p => p.2)).length

/-- Line 315: `len(self.user_status) - active_count`. -/
def banned_count (s : MonitorState) : Nat :=
  s.user_status.length - active_count s

/-- Line 319: `len(self.monitored_users)`. -/
def total_monitored (s : MonitorState) : Nat :=
  s.monitored_users.length

/-- `True` when every status entry's key is a watchlist member. -/
def statusKeysSubsetB (s : MonitorState) : Bool :=
  s.user_status.all (fun p => s.monitored_users.contains p.1)

/-! ### Association-list lemmas -/

theorem dictFind_dictSet_self (d : StatusMap) (k : String) (v : Bool) :
    dictFind (dictSet d k v) k = some v := by
  induction d with
  | nil => simp [dictSet, dictFind]
  | cons p rest ih =>
    cases h : (p.1 == k) with
    | true => simp [dictSet, dictFind, h]
    | false => simp [dictSet, dictFind, h, ih]

theorem dictFind_dictSet_ne (d : StatusMap) (k k' : String) (v : Bool)
    (hne : k' ≠ k) : dictFind (dictSet d k v) k' = dictFind d k' := by
  have hkk : (k == k') = false := by
    simpa using fun h2 => hne h2.symm
  induction d with
  | nil => simp [dictSet, dictFind, hkk]
  | cons p rest ih =>
    cases h : (p.1 == k) with
    | true =>
      have hp : p.1 = k := by simpa using h
      simp [dictSet, dictFind, h, hkk, hp]
    | false => simp [dictSet, dictFind, h, ih]

theorem dictFind_dictDel_self (d : StatusMap) (k : String) :
    dictFind (dictDel d k) k = none := by
  induction d with
  | nil => simp [dictDel, dictFind]
  | cons p rest ih =>
    cases h : (p.1 == k) with
    | true => simp [dictDel, h, ih]
    | false => simp [dictDel, dictFind, h, ih]

theorem dictFind_dictDel_ne (d : StatusMap) (k k' : String) (hne : k' ≠ k) :
    dictFind (dictDel d k) k' = dictFind d k' := by
  induction d with
  | nil => simp [dictDel]
  | cons p rest ih =>
    cases h : (p.1 == k) with
    | true =>
      have hp : p.1 = k := by simpa using h
      have hkk : (k == k') = false := by
        simpa using fun h2 => hne h2.symm
      simp [dictDel, dictFind, h, hkk, hp, ih]
    | false => simp [dictDel, dictFind, h, ih]

theorem dictKeys_dictSet (d : StatusMap) (k : String) (v : Bool) :
    dictKeys (dictSet d k v) =
      if dictContains d k = true then dictKeys d else dictKeys d ++ [k] := by
  induction d with
  | nil => simp [dictSet, dictKeys, dictContains, dictFind]
  | cons p rest ih =>
    cases h : (p.1 == k) with
    | true =>
      have hp : p.1 = k := by simpa using h
      simp [dictSet, dictKeys, dictContains, dictFind, h, hp]
    | false =>
      have e1 : dictSet (p :: rest) k v = p :: dictSet rest k v := by
        simp [dictSet, h]
      have e2 : dictContains (p :: rest) k = dictContains rest k := by
        simp [dictContains, dictFind, h]
      have e3 : dictKeys (p :: dictSet rest k v)
          = p.1 :: dictKeys (dictSet rest k v) := rfl
      have e4 : dictKeys (p :: rest) = p.1 :: dictKeys rest := rfl
      rw [e1, e2, e3, e4, ih]
      by_cases h2 : dictContains rest k = true
      · simp [h2]
      · simp [h2]

theorem dictKeys_dictDel (d : StatusMap) (k : String) :
    dictKeys (dictDel d k) = (dictKeys d).filter (fun x => x != k) := by
  induction d with
  | nil => simp [dictDel, dictKeys]
  | cons p rest ih =>
    have e4 : dictKeys (p :: rest) = p.1 :: dictKeys rest := rfl
    cases h : (p.1 == k) with
    | true =>
      have hp : p.1 = k := by simpa using h
      have e1 : dictDel (p :: rest) k = dictDel rest k := by
        simp [dictDel, h]
      rw [e1, ih, e4, hp, List.filter_cons]
      simp
    | false =>
      have e1 : dictDel (p :: rest) k = p :: dictDel rest k := by
        simp [dictDel, h]
      have e3 : dictKeys (p :: dictDel rest k)
          = p.1 :: dictKeys (dictDel rest k) := rfl
      have hb : (p.1 != k) = true := by simp [bne, h]
      rw [e1, e3, ih, e4, List.filter_cons, hb]
      simp

theorem dictContains_iff (d : StatusMap) (k : String) :
    dictContains d k = true ↔ k ∈ dictKeys d := by
  induction d with
  | nil => simp [dictContains, dictFind, dictKeys]
  | cons p rest ih =>
    have e4 : dictKeys (p :: rest) = p.1 :: dictKeys rest := rfl
    cases h : (p.1 == k) with
    | true =>
      have hp : p.1 = k := by simpa using h
      have e1 : dictContains (p :: rest) k = true := by
        simp [dictContains, dictFind, h]
      rw [e1, e4, hp]
      simp
    | false =>
      have hp : ¬ p.1 = k := by simpa using h
      have e1 : dictContains (p :: rest) k = dictContains rest k := by
        simp [dictContains, dictFind, h]
      rw [e1, e4, ih]
      constructor
      · intro hm
        exact List.mem_cons_of_mem _ hm
      · intro hm
        rcases List.mem_cons.mp hm with h2 | h2
        · exact absurd h2.symm hp
        · exact h2

/-! ### Reachability: commands and sweep iterations as a transition system -/

/-- One atomic command mutation (add or remove), as executed between
suspension points of the handler. -/
inductive CmdStep : MonitorState → MonitorState → Prop where
  | add (s : MonitorState) (arg : String) (probe : Bool) :
      CmdStep s (add_user_command s arg probe).1
  | remove (s : MonitorState) (arg : String) :
      CmdStep s (remove_user_command s arg).1

/-- States reachable from the initial state via add/remove commands only. -/
inductive ReachableCmd : MonitorState → Prop where
  | init : ReachableCmd initMonitor
  | step {s t : MonitorState} : ReachableCmd s → CmdStep s t → ReachableCmd t

/-- Whole-system state: the monitor state together with the remainder of
the iteration snapshot the in-flight sweep captured at line 207
(`self.monitored_users.copy()`); empty when no sweep is mid-pass. -/
structure SysState where
  st : MonitorState
  pending : List String
deriving DecidableEq, Repr

/-- Interleaved small steps of the command handlers and the monitoring
loop.  `sweepCheck` performs one iteration of the inner `for` loop on the
head of the captured snapshot with check result `b`; `sweepSkip` is the
same iteration when the check raised (state untouched); commands may run
at any suspension point, including mid-sweep. -/
inductive SysStep : SysState → SysState → Prop where
  | add (σ : SysState) (arg : String) (probe : Bool) :
      SysStep σ ⟨(add_user_command σ.st arg probe).1, σ.pending⟩
  | remove (σ : SysState) (arg : String) :
      SysStep σ ⟨(remove_user_command σ.st arg).1, σ.pending⟩
  | beginSweep (σ : SysState) (h : σ.pending = []) :
      SysStep σ ⟨σ.st, σ.st.monitored_users⟩
  | sweepCheck (σ : SysState) (u : String) (rest : List String) (b : Bool)
      (h : σ.pending = u :: rest) :
      SysStep σ ⟨(sweepCheckStep σ.st u b).1, rest⟩
  | sweepSkip (σ : SysState) (u : String) (rest : List String)
      (h : σ.pending = u :: rest) :
      SysStep σ ⟨σ.st, rest⟩

/-- States reachable by any interleaving of commands and sweep steps. -/
inductive SysReachable : SysState → Prop where
  | init : SysReachable ⟨initMonitor, []⟩
  | step {σ τ : SysState} : SysReachable σ → SysStep σ τ → SysReachable τ

/-- Like `SysStep`, but a sweep iteration may only write an identifier
that is still in the watchlist at write time (no late write for a
concurrently removed identifier). -/
inductive GSysStep : SysState → SysState → Prop where
  | add (σ : SysState) (arg : String) (probe : Bool) :
      GSysStep σ ⟨(add_user_command σ.st arg probe).1, σ.pending⟩
  | remove (σ : SysState) (arg : String) :
      GSysStep σ ⟨(remove_user_command σ.st arg).1, σ.pending⟩
  | beginSweep (σ : SysState) (h : σ.pending = []) :
      GSysStep σ ⟨σ.st, σ.st.monitored_users⟩
  | sweepCheck (σ : SysState) (u : String) (rest : List String) (b : Bool)
      (h : σ.pending = u :: rest) (hm : u ∈ σ.st.monitored_users) :
      GSysStep σ ⟨(sweepCheckStep σ.st u b).1, rest⟩
  | sweepSkip (σ : SysState) (u : String) (rest : List String)
      (h : σ.pending = u :: rest) :
      GSysStep σ ⟨σ.st, rest⟩

/-- States reachable when no sweep write arrives after a removal. -/
inductive GSysReachable : SysState → Prop where
  | init : GSysReachable ⟨initMonitor, []⟩
  | step {σ τ : SysState} : GSysReachable σ → GSysStep σ τ → GSysReachable τ

/-! ### The store invariant and its preservation -/

/-- The watchlist/status-map well-formedness invariant: no duplicates on
either side, every status key is a watchlist member, and every watchlist
member has a status entry. -/
def goodState (s : MonitorState) : Prop :=
  s.monitored_users.Nodup ∧ (dictKeys s.user_status).Nodup ∧
  (∀ u ∈ dictKeys s.user_status, u ∈ s.monitored_users) ∧
  (∀ u ∈ s.monitored_users, u ∈ dictKeys s.user_status)

/-! ### Unfolding equations for the command handlers and the sweep body -/

theorem add_user_command_of_mem (s : MonitorState) (arg : String) (probe : Bool)
    (h : strip_username arg ∈ s.monitored_users) :
    add_user_command s arg probe = (s, AddReply.alreadyMonitored) := by
  simp [add_user_command, h]

theorem add_user_command_of_not_mem (s : MonitorState) (arg : String)
    (probe : Bool) (h : strip_username arg ∉ s.monitored_users) :
    add_user_command s arg probe =
      (⟨s.monitored_users ++ [strip_username arg],
        dictSet s.user_status (strip_username arg) probe⟩,
       AddReply.added probe) := by
  simp [add_user_command, h]

theorem remove_user_command_of_mem (s : MonitorState) (arg : String)
    (h : strip_username arg ∈ s.monitored_users) :
    remove_user_command s arg =
      (⟨s.monitored_users.filter (fun x => x != strip_username arg),
        if dictContains s.user_status (strip_username arg) = true then
          dictDel s.user_status (strip_username arg)
        else s.user_status⟩, RemoveReply.removed) := by
  simp [remove_user_command, h]

theorem remove_user_command_of_not_mem (s : MonitorState) (arg : String)
    (h : strip_username arg ∉ s.monitored_users) :
    remove_user_command s arg = (s, RemoveReply.notMonitored) := by
  simp [remove_user_command, h]

theorem sweepCheckStep_state (s : MonitorState) (u : String) (b : Bool) :
    (sweepCheckStep s u b).1 = ⟨s.monitored_users, dictSet s.user_status u b⟩ :=
  rfl

theorem sweepCheckStep_notif (s : MonitorState) (u : String) (b : Bool) :
    (sweepCheckStep s u b).2 =
      (if dictGet s.user_status u true && !b then some Notification.banned
       else if !(dictGet s.user_status u true) && b then some Notification.restored
       else none) :=
  rfl

/-! ### The store invariant and its preservation -/

theorem goodState_mk (m : List String) (d : StatusMap)
    (a1 : m.Nodup) (a2 : (dictKeys d).Nodup)
    (a3 : ∀ u ∈ dictKeys d, u ∈ m) (a4 : ∀ u ∈ m, u ∈ dictKeys d) :
    goodState ⟨m, d⟩ :=
  ⟨a1, a2, a3, a4⟩

theorem goodState_init : goodState initMonitor := by
  refine goodState_mk _ _ ?_ ?_ ?_ ?_ <;> simp [dictKeys]

theorem goodState_add (s : MonitorState) (arg : String) (probe : Bool)
    (hg : goodState s) : goodState (add_user_command s arg probe).1 := by
  obtain ⟨h1, h2, h3, h4⟩ := hg
  by_cases hc : strip_username arg ∈ s.monitored_users
  · rw [add_user_command_of_mem s arg probe hc]
    exact ⟨h1, h2, h3, h4⟩
  · rw [add_user_command_of_not_mem s arg probe hc]
    have hkey : strip_username arg ∉ dictKeys s.user_status :=
      fun hk => hc (h3 _ hk)
    have hdc : dictContains s.user_status (strip_username arg) = false := by
      cases hdc2 : dictContains s.user_status (strip_username arg) with
      | true => exact absurd ((dictContains_iff ..).mp hdc2) hkey
      | false => rfl
    have hkeys : dictKeys (dictSet s.user_status (strip_username arg) probe)
        = dictKeys s.user_status ++ [strip_username arg] := by
      rw [dictKeys_dictSet, hdc]
      simp
    refine goodState_mk _ _ ?_ ?_ ?_ ?_
    · exact h1.append (List.nodup_singleton _) (List.disjoint_singleton.mpr hc)
    · rw [hkeys]
      exact h2.append (List.nodup_singleton _) (List.disjoint_singleton.mpr hkey)
    · intro u hu
      rw [hkeys] at hu
      rcases List.mem_append.mp hu with hu | hu
      · exact List.mem_append.mpr (Or.inl (h3 _ hu))
      · exact List.mem_append.mpr (Or.inr hu)
    · intro u hu
      rw [hkeys]
      rcases List.mem_append.mp hu with hu | hu
      · exact List.mem_append.mpr (Or.inl (h4 _ hu))
      · exact List.mem_append.mpr (Or.inr hu)

theorem goodState_remove (s : MonitorState) (arg : String)
    (hg : goodState s) : goodState (remove_user_command s arg).1 := by
  obtain ⟨h1, h2, h3, h4⟩ := hg
  by_cases hc : strip_username arg ∈ s.monitored_users
  case neg =>
    rw [remove_user_command_of_not_mem s arg hc]
    exact ⟨h1, h2, h3, h4⟩
  case pos =>
  rw [remove_user_command_of_mem s arg hc]
  have hmf : ∀ x, x ∈ s.monitored_users.filter (fun y => y != strip_username arg)
      ↔ x ∈ s.monitored_users ∧ x ≠ strip_username arg := by
    intro x
    simp [List.mem_filter]
  by_cases hdc : dictContains s.user_status (strip_username arg) = true
  · rw [if_pos hdc]
    refine goodState_mk _ _ (h1.filter _) ?_ ?_ ?_
    · rw [dictKeys_dictDel]
      exact h2.filter _
    · intro u hu
      rw [dictKeys_dictDel] at hu
      have hu2 := List.mem_filter.mp hu
      refine (hmf u).mpr ⟨h3 _ hu2.1, ?_⟩
      simpa using hu2.2
    · intro u hu
      have hu2 := (hmf u).mp hu
      rw [dictKeys_dictDel]
      refine List.mem_filter.mpr ⟨h4 _ hu2.1, ?_⟩
      simpa using hu2.2
  · have hkey : strip_username arg ∉ dictKeys s.user_status := by
      intro hk
      exact hdc ((dictContains_iff ..).mpr hk)
    rw [if_neg hdc]
    refine goodState_mk _ _ (h1.filter _) h2 ?_ ?_
    · intro u hu
      exact (hmf u).mpr ⟨h3 _ hu, fun he => hkey (he ▸ hu)⟩
    · intro u hu
      exact h4 _ ((hmf u).mp hu).1

theorem goodState_sweepCheck (s : MonitorState) (u : String) (b : Bool)
    (hm : u ∈ s.monitored_users) (hg : goodState s) :
    goodState (sweepCheckStep s u b).1 := by
  obtain ⟨h1, h2, h3, h4⟩ := hg
  rw [sweepCheckStep_state]
  by_cases hdc : dictContains s.user_status u = true
  · have hkeys : dictKeys (dictSet s.user_status u b) = dictKeys s.user_status := by
      rw [dictKeys_dictSet, if_pos hdc]
    refine goodState_mk _ _ h1 ?_ ?_ ?_
    · rw [hkeys]
      exact h2
    · intro x hx
      rw [hkeys] at hx
      exact h3 _ hx
    · intro x hx
      rw [hkeys]
      exact h4 _ hx
  · have hkey : u ∉ dictKeys s.user_status := by
      intro hk
      exact hdc ((dictContains_iff ..).mpr hk)
    have hkeys : dictKeys (dictSet s.user_status u b)
        = dictKeys s.user_status ++ [u] := by
      rw [dictKeys_dictSet, if_neg hdc]
    refine goodState_mk _ _ h1 ?_ ?_ ?_
    · rw [hkeys]
      exact h2.append (List.nodup_singleton _) (List.disjoint_singleton.mpr hkey)
    · intro x hx
      rw [hkeys] at hx
      rcases List.mem_append.mp hx with hx | hx
      · exact h3 _ hx
      · exact (List.mem_singleton.mp hx) ▸ hm
    · intro x hx
      rw [hkeys]
      exact List.mem_append.mpr (Or.inl (h4 _ hx))

/-- Every guarded-reachable system state satisfies the store invariant. -/
theorem goodState_GSysReachable {σ : SysState} (h : GSysReachable σ) :
    goodState σ.st := by
  induction h with
  | init => exact goodState_init
  | step _ hs ih =>
    cases hs with
    | add arg probe => exact goodState_add _ arg probe ih
    | remove arg => exact goodState_remove _ arg ih
    | beginSweep h => exact ih
    | sweepCheck u rest b h hm => exact goodState_sweepCheck _ u b hm ih
    | sweepSkip u rest h => exact ih

/-- Every add/remove-only reachable state satisfies the store invariant. -/
theorem goodState_ReachableCmd {s : MonitorState} (h : ReachableCmd s) :
    goodState s := by
  induction h with
  | init => exact goodState_init
  | step _ hs ih =>
    cases hs with
    | add arg probe => exact goodState_add _ arg probe ih
    | remove arg => exact goodState_remove _ arg ih

/-- Under the invariant, the status map and the watchlist have equal size. -/
theorem goodState_length {s : MonitorState} (hg : goodState s) :
    s.user_status.length = s.monitored_users.length := by
  obtain ⟨h1, h2, h3, h4⟩ := hg
  have hsub1 : List.Subperm (dictKeys s.user_status) s.monitored_users :=
    h2.subperm h3
  have hsub2 : List.Subperm s.monitored_users (dictKeys s.user_status) :=
    h1.subperm h4
  have hlen := (hsub1.antisymm hsub2).length_eq
  simpa [dictKeys] using hlen

/-! ### Lemmas about the prefix-stripping passes -/

theorem removeUSlash_uslash (l : List Char) :
    removeUSlash ('u' :: '/' :: l) = removeUSlash l := by
  show (if ('u' : Char) = 'u' ∧ ('/' : Char) = '/' then removeUSlash l
        else 'u' :: removeUSlash ('/' :: l)) = removeUSlash l
  rw [if_pos ⟨rfl, rfl⟩]

theorem removeUSlash_of_noUSlash (s : List Char) (h : noUSlash s = true) :
    removeUSlash s = s := by
  induction s with
  | nil => rfl
  | cons c rest ih =>
    cases rest with
    | nil => rfl
    | cons c2 rest2 =>
      have h' : (if c = 'u' ∧ c2 = '/' then false
                 else noUSlash (c2 :: rest2)) = true := h
      by_cases hcc : c = 'u' ∧ c2 = '/'
      · rw [if_pos hcc] at h'
        exact absurd h' Bool.false_ne_true
      · rw [if_neg hcc] at h'
        have e : removeUSlash (c :: c2 :: rest2)
            = c :: removeUSlash (c2 :: rest2) := by
          show (if c = 'u' ∧ c2 = '/' then removeUSlash rest2
                else c :: removeUSlash (c2 :: rest2)) = _
          rw [if_neg hcc]
        rw [e, ih h']

theorem removeSlashU_of_noUSlash (s : List Char) (h : noUSlash s = true) :
    removeSlashU s = s := by
  induction s with
  | nil => rfl
  | cons c rest ih =>
    cases rest with
    | nil => rfl
    | cons c2 rest2 =>
      cases rest2 with
      | nil => rfl
      | cons c3 rest3 =>
        have h' : (if c = 'u' ∧ c2 = '/' then false
                   else noUSlash (c2 :: c3 :: rest3)) = true := h
        by_cases hcc : c = 'u' ∧ c2 = '/'
        · rw [if_pos hcc] at h'
          exact absurd h' Bool.false_ne_true
        rw [if_neg hcc] at h'
        by_cases h3 : c = '/' ∧ c2 = 'u' ∧ c3 = '/'
        · exfalso
          have h'' : (if c2 = 'u' ∧ c3 = '/' then false
                      else noUSlash (c3 :: rest3)) = true := h'
          rw [if_pos ⟨h3.2.1, h3.2.2⟩] at h''
          exact absurd h'' Bool.false_ne_true
        · have e : removeSlashU (c :: c2 :: c3 :: rest3)
              = c :: removeSlashU (c2 :: c3 :: rest3) := by
            show (if c = '/' ∧ c2 = 'u' ∧ c3 = '/' then removeSlashU rest3
                  else c :: removeSlashU (c2 :: c3 :: rest3)) = _
            rw [if_neg h3]
          rw [e, ih h']

/-- A full sweep records one outcome per snapshot entry: no per-identifier
failure truncates the pass. -/
theorem monitoring_sweep_length (s : MonitorState) (t0 : Option String)
    (checks : List (String × TokenOutcome × HttpOutcome)) :
    (monitoring_sweep s t0 checks).2.2.length = checks.length := by
  induction checks generalizing s t0 with
  | nil => rfl
  | cons c rest ih =>
    obtain ⟨u, auth, g⟩ := c
    simp only [monitoring_sweep, List.length_cons]
    rw [ih]

/-! ### Claim theorems -/

/-- C1: for every identifier processed in a sweep, with previous stored
status `dictGet … true` (defaulting to active when absent) and newly
checked status `b`: a banned notification fires iff previous = true and
current = false; a restored notification fires iff previous = false and
current = true; and nothing fires iff the two agree. -/
theorem sweep_transition_notification_iff (s : MonitorState) (u : String)
    (b : Bool) :
    ((sweepCheckStep s u b).2 = some Notification.banned
      ↔ (dictGet s.user_status u true = true ∧ b = false))
    ∧ ((sweepCheckStep s u b).2 = some Notification.restored
      ↔ (dictGet s.user_status u true = false ∧ b = true))
    ∧ ((sweepCheckStep s u b).2 = none ↔ dictGet s.user_status u true = b) := by
  cases hp : dictGet s.user_status u true <;> cases b <;>
    simp [sweepCheckStep_notif, hp]

/-- C2 counterexample: for the identifier `alice` with stored status
banned (`false`), a transport error during the status lookup (the check
catches it at lines 177-179 and returns `True`) makes the sweep iteration
set the stored status to `true` and fire a restored notification — the
stored status is NOT left unchanged and a transition notification DOES
fire, contradicting the claim. -/
theorem check_error_flips_status_cex :
    monitoring_iteration ⟨["alice"], [("alice", false)]⟩ (some "token")
        "alice" TokenOutcome.exn HttpOutcome.exn
      = (⟨["alice"], [("alice", true)]⟩, some "token",
         some Notification.restored) := by
  decide

/-- C2 amended: a network error during the lookup itself is converted by
`_check_user_status` into the result `true` (assume active), so the
iteration behaves exactly as a successful active check — the stored
status becomes `true` (firing a restored notification when it was
`false`).  Only an error during token acquisition propagates and is
caught by the sweep's per-identifier handler, leaving the stored status
unchanged with no notification.  In both cases the sweep continues,
recording an outcome for every snapshot entry. -/
theorem check_error_behavior (s : MonitorState) (tok : String) (u : String)
    (auth : TokenOutcome) (g : HttpOutcome)
    (herr : get_reddit_token auth = Except.error ()) :
    (monitoring_iteration s (some tok) u auth HttpOutcome.exn
      = ((sweepCheckStep s u true).1, some tok, (sweepCheckStep s u true).2))
    ∧ (monitoring_iteration s none u auth g = (s, none, none))
    ∧ (∀ (t0 : Option String)
        (checks : List (String × TokenOutcome × HttpOutcome)),
        (monitoring_sweep s t0 checks).2.2.length = checks.length) := by
  refine ⟨rfl, ?_, fun t0 checks => monitoring_sweep_length s t0 checks⟩
  simp [monitoring_iteration, check_user_status_full, herr]

/-- Witness for C2 amended at a concrete input: failed token acquisition
leaves the state untouched and sends nothing. -/
theorem check_error_behavior_witness :
    monitoring_iteration ⟨["alice"], [("alice", false)]⟩ none "alice"
        TokenOutcome.exn (HttpOutcome.ok 200)
      = (⟨["alice"], [("alice", false)]⟩, none, none) :=
  (check_error_behavior ⟨["alice"], [("alice", false)]⟩ "t" "alice"
    TokenOutcome.exn (HttpOutcome.ok 200) rfl).2.1

/-- C3 counterexample: after removing `alice` (deleting its watchlist
membership and status entry), the in-flight sweep's late write
`self.user_status[username] = is_active` (line 224) is NOT a no-op: it
re-creates the entry, so the status map has an entry for the removed
identifier afterwards, contradicting the claim. -/
theorem late_write_resurrects_status_cex :
    dictFind ((sweepCheckStep
        (remove_user_command ⟨["alice"], [("alice", false)]⟩ "alice").1
        "alice" true).1.user_status) "alice" = some true := by
  decide

/-- C3 amended: after `remove` succeeds the watchlist excludes the
identifier and a status lookup reports not-found; but a sweep write
arriving after the removal is not a no-op — it re-inserts a status entry
for the removed identifier (the plain dict assignment at line 224 has no
membership guard). -/
theorem remove_then_late_write (s : MonitorState) (arg : String) (b : Bool)
    (h : strip_username arg ∈ s.monitored_users) :
    (strip_username arg ∉ (remove_user_command s arg).1.monitored_users)
    ∧ dictFind (remove_user_command s arg).1.user_status
        (strip_username arg) = none
    ∧ dictFind ((sweepCheckStep (remove_user_command s arg).1
        (strip_username arg) b).1.user_status) (strip_username arg)
        = some b := by
  rw [remove_user_command_of_mem s arg h]
  refine ⟨?_, ?_, ?_⟩
  · simp [List.mem_filter]
  · by_cases hdc : dictContains s.user_status (strip_username arg) = true
    · rw [if_pos hdc]
      exact dictFind_dictDel_self ..
    · rw [if_neg hdc]
      cases hf : dictFind s.user_status (strip_username arg) with
      | none => rfl
      | some v => exact absurd (by simp [dictContains, hf]) hdc
  · rw [sweepCheckStep_state]
    exact dictFind_dictSet_self ..

/-- Witness for C3 amended at a concrete input. -/
theorem remove_then_late_write_witness :
    (strip_username "alice"
      ∉ (remove_user_command ⟨["alice"], [("alice", true)]⟩ "alice").1.monitored_users)
    ∧ dictFind (remove_user_command ⟨["alice"], [("alice", true)]⟩ "alice").1.user_status
        (strip_username "alice") = none
    ∧ dictFind ((sweepCheckStep
        (remove_user_command ⟨["alice"], [("alice", true)]⟩ "alice").1
        (strip_username "alice") false).1.user_status) (strip_username "alice")
        = some false :=
  remove_then_late_write ⟨["alice"], [("alice", true)]⟩ "alice" false (by decide)

/-- C4 counterexample: the interleaving add(alice) → sweep snapshot →
remove(alice) → late sweep write reaches a state whose status map holds
an entry for `alice` while the watchlist is empty — an orphaned status
entry, contradicting the claimed invariant over all interleavings. -/
theorem orphan_status_reachable_cex :
    SysReachable ⟨⟨[], [("alice", true)]⟩, []⟩
    ∧ statusKeysSubsetB ⟨[], [("alice", true)]⟩ = false := by
  constructor
  · have h0 : SysReachable ⟨initMonitor, []⟩ := SysReachable.init
    have h1 := SysReachable.step h0 (SysStep.add ⟨initMonitor, []⟩ "alice" true)
    have h2 := SysReachable.step h1 (SysStep.beginSweep _ (by decide))
    have h3 := SysReachable.step h2 (SysStep.remove _ "alice")
    have h4 := SysReachable.step h3 (SysStep.sweepCheck _ "alice" [] true (by decide))
    exact h4
  · decide

/-- C4 amended: the invariant (every status entry's key is a watchlist
member) holds in every state reachable by add, remove, and sweep steps
provided each sweep write's identifier is still in the watchlist at write
time; a late sweep write for a removed identifier (the counterexample)
re-creates an orphaned entry and is the only way to break it. -/
theorem guarded_reachable_status_subset (σ : SysState)
    (h : GSysReachable σ) : statusKeysSubsetB σ.st = true := by
  obtain ⟨-, -, h3, -⟩ := goodState_GSysReachable h
  unfold statusKeysSubsetB
  rw [List.all_eq_true]
  intro p hp
  have hk : p.1 ∈ dictKeys σ.st.user_status := List.mem_map_of_mem _ hp
  simpa using h3 _ hk

/-- Witness for C4 amended: a guarded-reachable state with one member. -/
theorem guarded_reachable_status_subset_witness :
    statusKeysSubsetB (add_user_command initMonitor "alice" true).1 = true :=
  guarded_reachable_status_subset
    ⟨(add_user_command initMonitor "alice" true).1, []⟩
    (GSysReachable.step GSysReachable.init
      (GSysStep.add ⟨initMonitor, []⟩ "alice" true))

/-- C5 counterexample: in the reachable orphaned state (add, snapshot,
remove, late sweep write), the tracked-status count is 1 while the
watchlist size is 0, so `activeCount + bannedCount ≤ totalWatchlistSize`
fails, contradicting the claim over all reachable states. -/
theorem counts_exceed_watchlist_cex :
    SysReachable ⟨⟨[], [("alice", true)]⟩, []⟩
    ∧ ¬ (active_count ⟨[], [("alice", true)]⟩
          + banned_count ⟨[], [("alice", true)]⟩
        ≤ total_monitored ⟨[], [("alice", true)]⟩) := by
  constructor
  · have h0 : SysReachable ⟨initMonitor, []⟩ := SysReachable.init
    have h1 := SysReachable.step h0 (SysStep.add ⟨initMonitor, []⟩ "alice" true)
    have h2 := SysReachable.step h1 (SysStep.beginSweep _ (by decide))
    have h3 := SysReachable.step h2 (SysStep.remove _ "alice")
    have h4 := SysReachable.step h3 (SysStep.sweepCheck _ "alice" [] true (by decide))
    exact h4
  · decide

/-- C5 amended: `activeCount + bannedCount` always equals the number of
tracked status entries, and in every state reachable without a late sweep
write for a removed identifier that number EQUALS the watchlist size
(add seeds a status entry at insertion, so every member has been checked
at least once and the claimed `≤` holds with equality); a late sweep
write (the counterexample) can push it above the watchlist size. -/
theorem counts_consistency (σ : SysState) (h : GSysReachable σ) :
    active_count σ.st + banned_count σ.st = σ.st.user_status.length
    ∧ σ.st.user_status.length = total_monitored σ.st := by
  constructor
  · have hle : active_count σ.st ≤ σ.st.user_status.length := by
      unfold active_count
      exact List.length_filter_le _ _
    unfold banned_count
    omega
  · exact goodState_length (goodState_GSysReachable h)

/-- Witness for C5 amended: a guarded-reachable state with one member. -/
theorem counts_consistency_witness :
    active_count (add_user_command initMonitor "alice" true).1
        + banned_count (add_user_command initMonitor "alice" true).1
      = (add_user_command initMonitor "alice" true).1.user_status.length
    ∧ (add_user_command initMonitor "alice" true).1.user_status.length
      = total_monitored (add_user_command initMonitor "alice" true).1 :=
  counts_consistency ⟨(add_user_command initMonitor "alice" true).1, []⟩
    (GSysReachable.step GSysReachable.init
      (GSysStep.add ⟨initMonitor, []⟩ "alice" true))

/-- C6: the status check maps its lookup outcomes totally and never
raises on not-found: HTTP 200 ⇒ true, HTTP 404 ⇒ false, any other code ⇒
true, a transport exception ⇒ true; `false` arises only from an actual
404; and with a token held the full check returns exactly this mapping
(no exception escapes the lookup). -/
theorem check_status_mapping (c : Nat) (h200 : c ≠ 200) (h404 : c ≠ 404) :
    check_user_status (HttpOutcome.ok 200) = true
    ∧ check_user_status (HttpOutcome.ok 404) = false
    ∧ check_user_status (HttpOutcome.ok c) = true
    ∧ check_user_status HttpOutcome.exn = true
    ∧ (∀ g : HttpOutcome, check_user_status g = false ↔ g = HttpOutcome.ok 404)
    ∧ (∀ (tok : String) (auth : TokenOutcome) (g : HttpOutcome),
        check_user_status_full (some tok) auth g
          = Except.ok (check_user_status g, some tok)) := by
  refine ⟨rfl, rfl, ?_, rfl, ?_, fun tok auth g => rfl⟩
  · simp [check_user_status, h200, h404]
  · intro g
    cases g with
    | exn => simp [check_user_status]
    | ok k =>
      by_cases e2 : k = 200
      · subst e2
        simp [check_user_status]
      · by_cases e4 : k = 404
        · subst e4
          simp [check_user_status]
        · simp [check_user_status, e2, e4]

/-- Witness for C6 at a concrete unrecognized code. -/
theorem check_status_mapping_witness :
    check_user_status (HttpOutcome.ok 200) = true
    ∧ check_user_status (HttpOutcome.ok 404) = false
    ∧ check_user_status (HttpOutcome.ok 503) = true
    ∧ check_user_status HttpOutcome.exn = true
    ∧ (∀ g : HttpOutcome, check_user_status g = false ↔ g = HttpOutcome.ok 404)
    ∧ (∀ (tok : String) (auth : TokenOutcome) (g : HttpOutcome),
        check_user_status_full (some tok) auth g
          = Except.ok (check_user_status g, some tok)) :=
  check_status_mapping 503 (by decide) (by decide)

/-- C7 counterexample: with a held (expired) token and a 401 response —
the signal of an invalid token — the check completes with `true` and the
auth routine is never consulted: the auth outcome here is `.exn`, which
would fail any re-authentication attempt, yet the check succeeds without
raising, re-authenticating, or retrying.  This contradicts the claimed
re-authenticate-and-retry-once behaviour. -/
theorem no_reauth_on_expired_token_cex :
    check_user_status_full (some "expired") TokenOutcome.exn
        (HttpOutcome.ok 401)
      = Except.ok (true, some "expired") :=
  rfl

/-- C7 amended: the client authenticates only on first use (no token
held): with a token held the result is the direct mapping of the single
lookup outcome and the token is never refreshed, regardless of the auth
outcome — an invalid/expired token is never detected and no retry
occurs; on first use a successful token request installs the new token
and a failed one propagates as an exception. -/
theorem auth_only_on_first_use (tok : String) (auth : TokenOutcome)
    (g : HttpOutcome) (newTok : String)
    (hok : get_reddit_token auth = Except.ok newTok) :
    check_user_status_full (some tok) auth g
      = Except.ok (check_user_status g, some tok)
    ∧ check_user_status_full none auth g
      = Except.ok (check_user_status g, some newTok)
    ∧ (∀ auth2, get_reddit_token auth2 = Except.error ()
        → check_user_status_full none auth2 g = Except.error ()) := by
  refine ⟨rfl, ?_, ?_⟩
  · simp [check_user_status_full, hok]
  · intro auth2 herr
    simp [check_user_status_full, herr]

/-- Witness for C7 amended at concrete inputs. -/
theorem auth_only_on_first_use_witness :
    check_user_status_full (some "t") (TokenOutcome.success "k")
        (HttpOutcome.ok 200)
      = Except.ok (check_user_status (HttpOutcome.ok 200), some "t")
    ∧ check_user_status_full none (TokenOutcome.success "k")
        (HttpOutcome.ok 200)
      = Except.ok (check_user_status (HttpOutcome.ok 200), some "k")
    ∧ (∀ auth2, get_reddit_token auth2 = Except.error ()
        → check_user_status_full none auth2 (HttpOutcome.ok 200)
          = Except.error ()) :=
  auth_only_on_first_use "t" (TokenOutcome.success "k") (HttpOutcome.ok 200)
    "k" rfl

/-- C8: adding an identifier that is already monitored is a no-op
reported via the reply: the state is returned unchanged (no duplicate,
no status reset) and the result does not depend on the probe outcome
(no re-probe — the handler returns before the status check). -/
theorem add_existing_noop (s : MonitorState) (arg : String)
    (probe probe2 : Bool) (h : strip_username arg ∈ s.monitored_users) :
    add_user_command s arg probe = (s, AddReply.alreadyMonitored)
    ∧ add_user_command s arg probe = add_user_command s arg probe2 := by
  refine ⟨add_user_command_of_mem s arg probe h, ?_⟩
  rw [add_user_command_of_mem s arg probe h,
    add_user_command_of_mem s arg probe2 h]

/-- Witness for C8 at a concrete input. -/
theorem add_existing_noop_witness :
    add_user_command ⟨["alice"], [("alice", false)]⟩ "alice" true
      = (⟨["alice"], [("alice", false)]⟩, AddReply.alreadyMonitored)
    ∧ add_user_command ⟨["alice"], [("alice", false)]⟩ "alice" true
      = add_user_command ⟨["alice"], [("alice", false)]⟩ "alice" false :=
  add_existing_noop ⟨["alice"], [("alice", false)]⟩ "alice" true false
    (by decide)

/-- C9 counterexample: for the argument `/u/alice` the claim predicts the
identifier `alice` (the conventional `/u/` prefix stripped, rest
unchanged), but the code computes `/alice`: `replace('u/', '')` runs
first and removes the `u/` inside, after which no `/u/` remains for the
second replace. -/
theorem slash_u_arg_not_stripped_cex :
    strip_username "/u/alice" = "/alice"
    ∧ strip_username "/u/alice" ≠ "alice" := by
  decide

/-- C9 amended: the identifier is the argument with every occurrence of
`u/` removed and then every remaining occurrence of `/u/` removed — not
a pure prefix strip.  For arguments whose text contains no `u/` at all
apart from an optional leading `u/`, this agrees with the claim: the
leading `u/` is stripped and the rest is unchanged; but `/u/name` yields
`/name` and interior `u/` substrings are removed too. -/
theorem strip_username_of_clean (name : String)
    (h : noUSlash name.data = true) :
    strip_username ("u/" ++ name) = name ∧ strip_username name = name := by
  constructor
  · show String.mk (removeSlashU (removeUSlash ("u/" ++ name).data)) = name
    rw [String.data_append]
    have hd : ("u/" : String).data ++ name.data = 'u' :: '/' :: name.data := rfl
    rw [hd, removeUSlash_uslash, removeUSlash_of_noUSlash _ h,
      removeSlashU_of_noUSlash _ h]
  · show String.mk (removeSlashU (removeUSlash name.data)) = name
    rw [removeUSlash_of_noUSlash _ h, removeSlashU_of_noUSlash _ h]

/-- Witness for C9 amended at a concrete clean argument. -/
theorem strip_username_of_clean_witness :
    strip_username ("u/" ++ "alice") = "alice"
    ∧ strip_username "alice" = "alice" :=
  strip_username_of_clean "alice" (by decide)

/-- C10: in every state reachable via the add and remove commands alone
(each atomic between suspension points), every watchlist member has a
status entry: add probes and seeds the status together with insertion,
and remove deletes both — the pre-first-check state never occurs at a
command boundary. -/
theorem cmd_reachable_status_seeded (s : MonitorState) (h : ReachableCmd s) :
    ∀ u ∈ s.monitored_users, dictContains s.user_status u = true := by
  intro u hu
  obtain ⟨-, -, -, h4⟩ := goodState_ReachableCmd h
  exact (dictContains_iff ..).mpr (h4 _ hu)

/-- Witness for C10: after one add, the new member has a seeded status. -/
theorem cmd_reachable_status_seeded_witness :
    dictContains (add_user_command initMonitor "alice" true).1.user_status
      "alice" = true :=
  cmd_reachable_status_seeded (add_user_command initMonitor "alice" true).1
    (ReachableCmd.step ReachableCmd.init (CmdStep.add initMonitor "alice" true))
    "alice" (by decide)

end BanMonitor
